import Mathlib

/-!
Verification of the 2048 board engine (`script.js`, class `Game2048`).

The engine's state is `{grid, score, previousState, hasWon}`.  Grids are
4×4 matrices of natural numbers (0 = empty cell), embedded as
`List (List Nat)`; JavaScript array indexing `a[i]` with a default for
out-of-range indices is rendered with `List.getD`.  The only source of
non-determinism, `Math.random` inside `addRandomTile`, is made explicit:
the cell choice `Math.floor(Math.random() * emptyCells.length)` becomes a
parameter `k` reduced modulo the number of empty cells, and the value
choice `Math.random() < 0.9 ? 2 : 4` becomes a Boolean parameter `coin`
(`true` ↦ 2, `false` ↦ 4).  DOM rendering, animation timers and
localStorage I/O are outside the engine; the win / game-over overlays
shown by `move` are modelled as an explicit `MoveEvent` value.
-/

namespace Game2048

/-- The four move directions accepted by `move`. -/
inductive Direction where
  | left
  | right
  | up
  | down
deriving DecidableEq

/-- Result of processing one line, from `slideAndMergeRow`: the new line,
the merge positions (`merged`), and the amount added to `this.score`
while the line was processed (the JS mutates `this.score` in place; the
delta is returned here as `gain`). -/
structure LineResult where
  row : List Nat
  merged : List Nat
  gain : Nat
deriving DecidableEq

/-- The merge loop of `slideAndMergeRow` (lines 190-197 of `script.js`),
acting on the zero-free compacted list.  At index `i`: if the current
element equals the next, the current becomes its double, the next is
spliced out, position `i` is recorded and the doubled value added to the
score; either way the scan advances to `i+1`, so a freshly merged cell is
never compared again. -/
def mergeAux (i : Nat) : List Nat → LineResult
  | [] => ⟨[], [], 0⟩
  | [a] => ⟨[a], [], 0⟩
  | a :: b :: rest =>
    if a = b then
      let r := mergeAux (i + 1) rest
      ⟨2 * a :: r.row, i :: r.merged, 2 * a + r.gain⟩
    else
      let r := mergeAux (i + 1) (b :: rest)
      ⟨a :: r.row, r.merged, r.gain⟩

/-- Padding loop of `slideAndMergeRow`: `while (newRow.length < 4) newRow.push(0)`. -/
def padTo4 (l : List Nat) : List Nat := l ++ List.replicate (4 - l.length) 0

/-- `slideAndMergeRow` (lines 186-204): drop zeros, run the merge scan,
pad with zeros at the far end to length 4. -/
def slideAndMergeRow (row : List Nat) : LineResult :=
  let r := mergeAux 0 (row.filter (fun v => v != 0))
  ⟨padTo4 r.row, r.merged, r.gain⟩

/-- Cell read `grid[i][j]` (indices used by the engine are always 0..3). -/
def cellAt (g : List (List Nat)) (i j : Nat) : Nat := (g.getD i []).getD j 0

/-- Row read `grid[i]`. -/
def rowAt (g : List (List Nat)) (i : Nat) : List Nat := g.getD i []

/-- Column extraction `[grid[0][j], grid[1][j], grid[2][j], grid[3][j]]`
used by the `up` branch of `move`. -/
def colAt (g : List (List Nat)) (j : Nat) : List Nat :=
  [cellAt g 0 j, cellAt g 1 j, cellAt g 2 j, cellAt g 3 j]

/-- Reversed column `[grid[3][j], grid[2][j], grid[1][j], grid[0][j]]`
used by the `down` branch of `move`. -/
def colAtRev (g : List (List Nat)) (j : Nat) : List Nat :=
  [cellAt g 3 j, cellAt g 2 j, cellAt g 1 j, cellAt g 0 j]

/-- The four-element read `[l[0], l[1], l[2], l[3]]` used in the `up`
comparison of `move` (line 127). -/
def take4 (l : List Nat) : List Nat := [l.getD 0 0, l.getD 1 0, l.getD 2 0, l.getD 3 0]

/-- The reversed four-element read `[l[3], l[2], l[1], l[0]]` used in the
`down` comparison of `move` (line 139). -/
def take4Rev (l : List Nat) : List Nat := [l.getD 3 0, l.getD 2 0, l.getD 1 0, l.getD 0 0]

/-- Pointwise construction of a 4×4 grid; renders the in-place cell
writes `newGrid[i][j] = ...` of the column branches of `move`
(the engine's grids are always 4×4, created by `initGrid`). -/
def mkGrid (f : Nat → Nat → Nat) : List (List Nat) :=
  (List.range 4).map fun i => (List.range 4).map fun j => f i j

/-- The grid transformation of `move` (lines 102-147): the candidate
`newGrid`, the `moved` flag, the `mergedCells` list and the total score
gain of the four processed lines.

Faithfulness notes, traced from the source:
* `left` (104-112): each row is replaced by its slide result; `moved`
  compares the result with the original row.
* `right` (113-122): the row is copied and reversed, then slid.  Line 117
  calls `row.row.reverse()` inside the `moved` comparison — JavaScript
  `reverse` mutates in place, so after the comparison `row.row` holds the
  mirrored (right-packed) line; line 120 then calls `reverse()` again,
  restoring the slid (left-packed) orientation, and stores that into
  `newGrid[i]`.  Hence `newGrid` receives `(slide (reverse row)).row`
  while `moved` compares `(slide (reverse row)).row.reverse` with the
  original row.  Merge columns are mirrored as `3 - c` (line 121).
* `up` (123-134): column `j` is slid; `moved` compares
  `[row.row[0..3]]` with the original column; `newGrid[i][j] = row.row[i]`.
* `down` (135-146): the reversed column is slid; `moved` compares
  `[row.row[3..0]]` with the original top-to-bottom column;
  `newGrid[3-i][j] = row.row[i]`; merge rows are mirrored as `3 - r`. -/
def moveGrid (g : List (List Nat)) : Direction → (List (List Nat) × Bool × List (Nat × Nat) × Nat)
  | Direction.left =>
    ((List.range 4).map fun i => (slideAndMergeRow (rowAt g i)).row,
     (List.range 4).any fun i => decide ((slideAndMergeRow (rowAt g i)).row ≠ rowAt g i),
     (List.range 4).flatMap fun i => (slideAndMergeRow (rowAt g i)).merged.map fun c => (i, c),
     ((List.range 4).map fun i => (slideAndMergeRow (rowAt g i)).gain).sum)
  | Direction.right =>
    ((List.range 4).map fun i => (slideAndMergeRow (rowAt g i).reverse).row,
     (List.range 4).any fun i => decide ((slideAndMergeRow (rowAt g i).reverse).row.reverse ≠ rowAt g i),
     (List.range 4).flatMap fun i => (slideAndMergeRow (rowAt g i).reverse).merged.map fun c => (i, 3 - c),
     ((List.range 4).map fun i => (slideAndMergeRow (rowAt g i).reverse).gain).sum)
  | Direction.up =>
    (mkGrid fun i j => (slideAndMergeRow (colAt g j)).row.getD i 0,
     (List.range 4).any fun j => decide (take4 (slideAndMergeRow (colAt g j)).row ≠ colAt g j),
     (List.range 4).flatMap fun j => (slideAndMergeRow (colAt g j)).merged.map fun r => (r, j),
     ((List.range 4).map fun j => (slideAndMergeRow (colAt g j)).gain).sum)
  | Direction.down =>
    (mkGrid fun i j => (slideAndMergeRow (colAtRev g j)).row.getD (3 - i) 0,
     (List.range 4).any fun j => decide (take4Rev (slideAndMergeRow (colAtRev g j)).row ≠ colAt g j),
     (List.range 4).flatMap fun j => (slideAndMergeRow (colAtRev g j)).merged.map fun r => (3 - r, j),
     ((List.range 4).map fun j => (slideAndMergeRow (colAtRev g j)).gain).sum)

/-- Engine state: `this.grid`, `this.score`, `this.previousState` (the
one-slot undo snapshot set by `saveState`) and the sticky `this.hasWon`. -/
structure GameState where
  grid : List (List Nat)
  score : Nat
  previousState : Option (List (List Nat) × Nat)
  hasWon : Bool
deriving DecidableEq

/-- The empty 4×4 grid created by `initGrid`. -/
def initGrid : List (List Nat) := List.replicate 4 (List.replicate 4 0)

/-- Row-major enumeration of the empty cells, as built by the loops of
`addRandomTile` (lines 78-85). -/
def emptyCells (g : List (List Nat)) : List (Nat × Nat) :=
  (List.range 4).flatMap fun i =>
    (List.range 4).filterMap fun j => if cellAt g i j = 0 then some (i, j) else none

/-- In-place cell write `grid[i][j] = v`. -/
def setCell (g : List (List Nat)) (i j v : Nat) : List (List Nat) :=
  g.set i ((g.getD i []).set j v)

/-- `addRandomTile` (lines 77-91): pick an empty cell (index `k` modulo
the number of empty cells stands for the uniformly random choice) and
write 2 (`coin = true`, probability 0.9) or 4 (`coin = false`); a full
grid is left unchanged. -/
def addRandomTile (g : List (List Nat)) (k : Nat) (coin : Bool) : List (List Nat) :=
  let e := emptyCells g
  if e.length = 0 then g
  else
    let cell := e.getD (k % e.length) (0, 0)
    setCell g cell.1 cell.2 (if coin then 2 else 4)

/-- `checkWin` (lines 210-219): some cell equals 2048. -/
def checkWin (g : List (List Nat)) : Bool :=
  (List.range 4).any fun i => (List.range 4).any fun j => cellAt g i j == 2048

/-- `isGameOver` (lines 225-249): false on any empty cell; otherwise
false on any cell whose right or below neighbour holds the same value;
otherwise true. -/
def isGameOver (g : List (List Nat)) : Bool :=
  if (List.range 4).any (fun i => (List.range 4).any fun j => cellAt g i j == 0) then
    false
  else if (List.range 4).any (fun i => (List.range 4).any fun j =>
      (decide (i < 3) && (cellAt g (i + 1) j == cellAt g i j)) ||
      (decide (j < 3) && (cellAt g i (j + 1) == cellAt g i j))) then
    false
  else
    true

/-- `newGame` (lines 63-72): clear the grid, reset score and the won
flag, drop the snapshot, spawn two random tiles. -/
def newGame (k1 : Nat) (c1 : Bool) (k2 : Nat) (c2 : Bool) : GameState :=
  { grid := addRandomTile (addRandomTile initGrid k1 c1) k2 c2
    score := 0
    previousState := none
    hasWon := false }

/-- The overlay displayed at the end of `move`: the win overlay (shown
when the win latch fires), the game-over overlay, or nothing. -/
inductive MoveEvent where
  | winEvent
  | gameOverEvent
  | noEvent
deriving DecidableEq

/-- `move` (lines 97-179).  `saveState` is called first, unconditionally
(line 98), so `previousState` holds the pre-move grid and score whether
or not the move goes on to change anything.  The score delta accrued
inside `slideAndMergeRow` is applied unconditionally as well, mirroring
the in-place `this.score += ...`.  When `moved` holds: the grid is
committed, one tile spawns, and the win latch / game-over checks run on
the post-spawn grid (the win branch fires only when `hasWon` was not yet
set, and sets it). -/
def move (st : GameState) (dir : Direction) (k : Nat) (coin : Bool) : GameState × MoveEvent :=
  let prev := some (st.grid, st.score)
  let mc := moveGrid st.grid dir
  let score1 := st.score + mc.2.2.2
  if mc.2.1 then
    let g2 := addRandomTile mc.1 k coin
    if checkWin g2 && !st.hasWon then
      ({ grid := g2, score := score1, previousState := prev, hasWon := true },
       MoveEvent.winEvent)
    else if isGameOver g2 then
      ({ grid := g2, score := score1, previousState := prev, hasWon := st.hasWon },
       MoveEvent.gameOverEvent)
    else
      ({ grid := g2, score := score1, previousState := prev, hasWon := st.hasWon },
       MoveEvent.noEvent)
  else
    ({ st with previousState := prev, score := score1 }, MoveEvent.noEvent)

/-- `undo` (lines 264-272): restore grid and score from the snapshot and
clear it; without a snapshot, do nothing.  `hasWon` is not part of the
snapshot and is not touched. -/
def undo (st : GameState) : GameState :=
  match st.previousState with
  | some p => { st with grid := p.1, score := p.2, previousState := none }
  | none => st

/-- A persisted record as `loadGame` consumes it after a successful
`JSON.parse`: `{grid, score, hasWon}`, where a missing `hasWon` field is
defaulted to `false` by `gameState.hasWon || false` (line 40). -/
structure SavedRecord where
  grid : List (List Nat)
  score : Nat
  hasWon : Option Bool
deriving DecidableEq

/-- What `JSON.parse` does to the string found in localStorage: either it
yields a saved record, or the text is malformed and `JSON.parse` throws.
`loadGame` wraps the call in no try/catch, so the throw propagates. -/
inductive StoredText where
  | parsesTo (r : SavedRecord)
  | malformed
deriving DecidableEq

/-- `loadGame` (lines 33-45): with auto-save on and a stored value
present, parse it and install `{grid, score, hasWon}`; a malformed
stored value makes `JSON.parse` throw, which escapes `loadGame`
(`Except.error`).  With no stored value, or auto-save off, fall through
to `newGame`. -/
def loadGame (autoSave : Bool) (stored : Option StoredText)
    (k1 : Nat) (c1 : Bool) (k2 : Nat) (c2 : Bool) : Except Unit GameState :=
  if autoSave then
    match stored with
    | some (StoredText.parsesTo r) =>
      Except.ok { grid := r.grid, score := r.score, previousState := none,
                  hasWon := r.hasWon.getD false }
    | some StoredText.malformed => Except.error ()
    | none => Except.ok (newGame k1 c1 k2 c2)
  else
    Except.ok (newGame k1 c1 k2 c2)

/-! ### Lemmas about the merge scan -/

theorem mergeAux_cons_self (i a : Nat) (rest : List Nat) :
    mergeAux i (a :: a :: rest)
      = ⟨2 * a :: (mergeAux (i + 1) rest).row, i :: (mergeAux (i + 1) rest).merged,
         2 * a + (mergeAux (i + 1) rest).gain⟩ := by
  simp [mergeAux]

theorem mergeAux_cons_ne (i a b : Nat) (rest : List Nat) (h : a ≠ b) :
    mergeAux i (a :: b :: rest)
      = ⟨a :: (mergeAux (i + 1) (b :: rest)).row, (mergeAux (i + 1) (b :: rest)).merged,
         (mergeAux (i + 1) (b :: rest)).gain⟩ := by
  simp [mergeAux, h]

/-- Each merge removes exactly one cell from the compacted line. -/
theorem mergeAux_length (i : Nat) (l : List Nat) :
    (mergeAux i l).row.length + (mergeAux i l).merged.length = l.length := by
  induction i, l using mergeAux.induct with
  | case1 i => simp [mergeAux]
  | case2 i a => simp [mergeAux]
  | case3 i b rest ih =>
    rw [mergeAux_cons_self]
    simp only [List.length_cons]
    omega
  | case4 i a b rest h ih =>
    rw [mergeAux_cons_ne i a b rest h]
    simp only [List.length_cons] at ih ⊢
    omega

/-- The merge scan partitions the compacted line into consecutive blocks
of size one (kept cells) or two (a merged pair of equal cells); each
output cell is the sum of its block.  Blocks of size two are exactly the
merges, so no cell ever takes part in two merges. -/
theorem mergeAux_grouping (i : Nat) (l : List Nat) :
    ∃ bs : List (List Nat), bs.flatten = l ∧ (mergeAux i l).row = bs.map List.sum ∧
      ∀ b ∈ bs, (∃ a, b = [a]) ∨ (∃ a, b = [a, a]) := by
  induction i, l using mergeAux.induct with
  | case1 i => exact ⟨[], rfl, rfl, by simp⟩
  | case2 i a =>
    refine ⟨[[a]], by simp, by simp [mergeAux], ?_⟩
    intro b hb
    simp at hb
    exact Or.inl ⟨a, hb⟩
  | case3 i b rest ih =>
    obtain ⟨bs, h1, h2, h3⟩ := ih
    refine ⟨[b, b] :: bs, by simp [h1], ?_, ?_⟩
    · rw [mergeAux_cons_self]
      simp [h2]
      omega
    · intro c hc
      rcases List.mem_cons.mp hc with h | h
      · exact Or.inr ⟨b, h⟩
      · exact h3 c h
  | case4 i a b rest h ih =>
    obtain ⟨bs, h1, h2, h3⟩ := ih
    refine ⟨[a] :: bs, by simp [h1], ?_, ?_⟩
    · rw [mergeAux_cons_ne i a b rest h]
      simp [h2]
    · intro c hc
      rcases List.mem_cons.mp hc with h | h
      · exact Or.inl ⟨a, h⟩
      · exact h3 c h

/-- Every recorded merge position indexes, inside the produced line, the
doubled cell the merge created, and the score gain is exactly the sum of
those doubled cells. -/
theorem mergeAux_gain_eq (i : Nat) (l : List Nat) :
    (∀ j ∈ (mergeAux i l).merged, i ≤ j ∧ j - i < (mergeAux i l).row.length) ∧
    (mergeAux i l).gain
      = ((mergeAux i l).merged.map fun j => (mergeAux i l).row.getD (j - i) 0).sum := by
  induction i, l using mergeAux.induct with
  | case1 i => simp [mergeAux]
  | case2 i a => simp [mergeAux]
  | case3 i b rest ih =>
    obtain ⟨ihb, ihg⟩ := ih
    rw [mergeAux_cons_self]
    constructor
    · intro j hj
      rcases List.mem_cons.mp hj with hh | hh
      · subst hh
        simp
      · have := ihb j hh
        simp only [List.length_cons]
        omega
    · simp only [List.map_cons, List.sum_cons, Nat.sub_self, List.getD_cons_zero]
      have hmap : ((mergeAux (i + 1) rest).merged.map fun j =>
            (2 * b :: (mergeAux (i + 1) rest).row).getD (j - i) 0)
          = ((mergeAux (i + 1) rest).merged.map fun j =>
            (mergeAux (i + 1) rest).row.getD (j - (i + 1)) 0) := by
        apply List.map_congr_left
        intro j hj
        have := (ihb j hj).1
        have hji : j - i = (j - (i + 1)) + 1 := by omega
        rw [hji, List.getD_cons_succ]
      rw [hmap, ← ihg]
  | case4 i a b rest hne ih =>
    obtain ⟨ihb, ihg⟩ := ih
    rw [mergeAux_cons_ne i a b rest hne]
    constructor
    · intro j hj
      have := ihb j hj
      simp only [List.length_cons]
      omega
    · have hmap : ((mergeAux (i + 1) (b :: rest)).merged.map fun j =>
            (a :: (mergeAux (i + 1) (b :: rest)).row).getD (j - i) 0)
          = ((mergeAux (i + 1) (b :: rest)).merged.map fun j =>
            (mergeAux (i + 1) (b :: rest)).row.getD (j - (i + 1)) 0) := by
        apply List.map_congr_left
        intro j hj
        have := (ihb j hj).1
        have hji : j - i = (j - (i + 1)) + 1 := by omega
        rw [hji, List.getD_cons_succ]
      rw [hmap, ← ihg]

/-- The merge scan keeps cells non-zero when it starts from non-zero cells. -/
theorem mergeAux_row_ne_zero (i : Nat) (l : List Nat) :
    (∀ x ∈ l, x ≠ 0) → ∀ y ∈ (mergeAux i l).row, y ≠ 0 := by
  induction i, l using mergeAux.induct with
  | case1 i => simp [mergeAux]
  | case2 i a => simp [mergeAux]
  | case3 i b rest ih =>
    intro h
    rw [mergeAux_cons_self]
    intro y hy
    rcases List.mem_cons.mp hy with hh | hh
    · have hb : b ≠ 0 := h b (by simp)
      omega
    · exact ih (fun x hx => h x (by simp [hx])) y hh
  | case4 i a b rest hne ih =>
    intro h
    rw [mergeAux_cons_ne i a b rest hne]
    intro y hy
    rcases List.mem_cons.mp hy with hh | hh
    · subst hh
      exact h y (by simp)
    · refine ih (fun x hx => h x ?_) y hh
      simp only [List.mem_cons] at hx ⊢
      tauto

/-! ### Lemmas about `slideAndMergeRow` -/

theorem slideAndMergeRow_def (l : List Nat) :
    slideAndMergeRow l
      = ⟨padTo4 (mergeAux 0 (l.filter fun v => v != 0)).row,
         (mergeAux 0 (l.filter fun v => v != 0)).merged,
         (mergeAux 0 (l.filter fun v => v != 0)).gain⟩ := rfl

theorem mergeAux_merged_nil_gain (i : Nat) (l : List Nat)
    (h : (mergeAux i l).merged = []) : (mergeAux i l).gain = 0 := by
  have hg := (mergeAux_gain_eq i l).2
  rw [h] at hg
  simpa using hg

/-- Every merge position of a processed line indexes a cell of the
unpadded merge output. -/
theorem slideAndMergeRow_merged_lt (l : List Nat) :
    ∀ j ∈ (slideAndMergeRow l).merged,
      j < (mergeAux 0 (l.filter fun v => v != 0)).row.length := by
  intro j hj
  rw [slideAndMergeRow_def] at hj
  have := ((mergeAux_gain_eq 0 (l.filter fun v => v != 0)).1 j hj).2
  omega

/-- The score gain of a line is exactly the sum of the doubled cells the
line's merges created, read off at the recorded merge positions. -/
theorem slideAndMergeRow_gain_eq (l : List Nat) :
    (slideAndMergeRow l).gain
      = ((slideAndMergeRow l).merged.map fun j => (slideAndMergeRow l).row.getD j 0).sum := by
  have hb := slideAndMergeRow_merged_lt l
  rw [slideAndMergeRow_def] at hb ⊢
  simp only
  have hg := (mergeAux_gain_eq 0 (l.filter fun v => v != 0)).2
  rw [hg]
  apply congrArg
  apply List.map_congr_left
  intro j hj
  have hlt := hb j hj
  simp only [Nat.sub_zero, padTo4]
  rw [List.getD_append _ _ _ _ hlt]

/-- A line left unchanged by `slideAndMergeRow` had no merges and
contributed no score. -/
theorem slideAndMergeRow_fixed (l : List Nat) (h : (slideAndMergeRow l).row = l) :
    (slideAndMergeRow l).merged = [] ∧ (slideAndMergeRow l).gain = 0 := by
  rw [slideAndMergeRow_def] at h ⊢
  simp only at h ⊢
  have hne : ∀ x ∈ l.filter (fun v => v != 0), x ≠ 0 := by
    intro x hx
    have := (List.mem_filter.mp hx).2
    simpa using this
  have hrow : (mergeAux 0 (l.filter fun v => v != 0)).row = l.filter fun v => v != 0 := by
    have hfil := congrArg (List.filter fun v => v != 0) h
    rw [padTo4, List.filter_append] at hfil
    have h1 : ((mergeAux 0 (l.filter fun v => v != 0)).row.filter fun v => v != 0)
        = (mergeAux 0 (l.filter fun v => v != 0)).row :=
      List.filter_eq_self.mpr (by
        intro x hx
        have := mergeAux_row_ne_zero 0 _ hne x hx
        simpa using this)
    have h2 : ((List.replicate (4 - (mergeAux 0 (l.filter fun v => v != 0)).row.length) 0).filter
        fun v => v != 0) = [] := by simp
    rw [h1, h2, List.append_nil] at hfil
    exact hfil
  have hlen := mergeAux_length 0 (l.filter fun v => v != 0)
  rw [hrow] at hlen
  have : (mergeAux 0 (l.filter fun v => v != 0)).merged.length = 0 := by omega
  have hm := List.eq_nil_of_length_eq_zero this
  exact ⟨hm, mergeAux_merged_nil_gain 0 _ hm⟩

/-- A line with no merges contributed no score. -/
theorem slideAndMergeRow_merged_nil (l : List Nat) (h : (slideAndMergeRow l).merged = []) :
    (slideAndMergeRow l).gain = 0 := by
  have := slideAndMergeRow_gain_eq l
  rw [h] at this
  simpa using this

/-- Lines of at most four cells come back with exactly four cells. -/
theorem slideAndMergeRow_length (l : List Nat) (h : l.length ≤ 4) :
    (slideAndMergeRow l).row.length = 4 := by
  have h1 := mergeAux_length 0 (l.filter fun v => v != 0)
  have h2 := List.length_filter_le (fun v => v != 0) l
  rw [slideAndMergeRow_def]
  simp only [padTo4, List.length_append, List.length_replicate]
  omega

theorem take4_eq (l : List Nat) (h : l.length = 4) : take4 l = l := by
  rcases l with _ | ⟨a, _ | ⟨b, _ | ⟨c, _ | ⟨d, _ | ⟨e, t⟩⟩⟩⟩⟩ <;>
    simp only [List.length_cons, List.length_nil] at h <;>
    first
      | rfl
      | omega

theorem take4Rev_eq (l : List Nat) (h : l.length = 4) : take4Rev l = l.reverse := by
  rcases l with _ | ⟨a, _ | ⟨b, _ | ⟨c, _ | ⟨d, _ | ⟨e, t⟩⟩⟩⟩⟩ <;>
    simp only [List.length_cons, List.length_nil] at h <;>
    first
      | rfl
      | omega

theorem colAtRev_eq_reverse (g : List (List Nat)) (j : Nat) :
    colAtRev g j = (colAt g j).reverse := rfl

theorem colAt_length (g : List (List Nat)) (j : Nat) : (colAt g j).length = 4 := rfl

/-! ### The lines a move processes, and lemmas about `moveGrid` -/

/-- The four lines `move` feeds to `slideAndMergeRow`, oriented so the
direction of travel points toward index 0: the rows for `left`, the
reversed rows for `right`, the columns for `up`, the reversed columns
for `down`. -/
def linesOf (g : List (List Nat)) : Direction → List (List Nat)
  | Direction.left => (List.range 4).map fun i => rowAt g i
  | Direction.right => (List.range 4).map fun i => (rowAt g i).reverse
  | Direction.up => (List.range 4).map fun j => colAt g j
  | Direction.down => (List.range 4).map fun j => colAtRev g j

/-- The score delta of a move is the sum of the gains of its four lines. -/
theorem moveGrid_gain_eq (g : List (List Nat)) (dir : Direction) :
    (moveGrid g dir).2.2.2 = ((linesOf g dir).map fun l => (slideAndMergeRow l).gain).sum := by
  cases dir <;> simp [moveGrid, linesOf, List.map_map, Function.comp_def]

/-- When the `moved` flag is false, every processed line came back equal
to itself. -/
theorem moveGrid_not_moved_lines (g : List (List Nat)) (dir : Direction)
    (h : (moveGrid g dir).2.1 = false) :
    ∀ l ∈ linesOf g dir, (slideAndMergeRow l).row = l := by
  cases dir with
  | left =>
    intro l hl
    simp only [linesOf, List.mem_map, List.mem_range] at hl
    obtain ⟨i, hi, rfl⟩ := hl
    simp only [moveGrid, List.any_eq_false] at h
    have := h i (List.mem_range.mpr hi)
    simpa using this
  | right =>
    intro l hl
    simp only [linesOf, List.mem_map, List.mem_range] at hl
    obtain ⟨i, hi, rfl⟩ := hl
    simp only [moveGrid, List.any_eq_false] at h
    have := h i (List.mem_range.mpr hi)
    have hrr : (slideAndMergeRow (rowAt g i).reverse).row.reverse = rowAt g i := by
      simpa using this
    have := congrArg List.reverse hrr
    simpa using this
  | up =>
    intro l hl
    simp only [linesOf, List.mem_map, List.mem_range] at hl
    obtain ⟨j, hj, rfl⟩ := hl
    simp only [moveGrid, List.any_eq_false] at h
    have := h j (List.mem_range.mpr hj)
    have ht : take4 (slideAndMergeRow (colAt g j)).row = colAt g j := by
      simpa using this
    rwa [take4_eq _ (slideAndMergeRow_length _ (by rw [colAt_length]))] at ht
  | down =>
    intro l hl
    simp only [linesOf, List.mem_map, List.mem_range] at hl
    obtain ⟨j, hj, rfl⟩ := hl
    simp only [moveGrid, List.any_eq_false] at h
    have := h j (List.mem_range.mpr hj)
    have ht : take4Rev (slideAndMergeRow (colAtRev g j)).row = colAt g j := by
      simpa using this
    rw [take4Rev_eq _ (slideAndMergeRow_length _ (by
      rw [colAtRev_eq_reverse, List.length_reverse, colAt_length]))] at ht
    have := congrArg List.reverse ht
    simpa [colAtRev_eq_reverse] using this

/-- A move whose `moved` flag is false accrued no score. -/
theorem moveGrid_not_moved_gain (g : List (List Nat)) (dir : Direction)
    (h : (moveGrid g dir).2.1 = false) : (moveGrid g dir).2.2.2 = 0 := by
  rw [moveGrid_gain_eq]
  apply List.sum_eq_zero
  intro x hx
  simp only [List.mem_map] at hx
  obtain ⟨l, hl, rfl⟩ := hx
  exact (slideAndMergeRow_fixed l (moveGrid_not_moved_lines g dir h l hl)).2

/-- A move that reports no merged cells accrued no score. -/
theorem moveGrid_merged_nil_gain (g : List (List Nat)) (dir : Direction)
    (h : (moveGrid g dir).2.2.1 = []) : (moveGrid g dir).2.2.2 = 0 := by
  cases dir <;>
  · simp only [moveGrid, List.flatMap_eq_nil_iff] at h
    simp only [moveGrid]
    apply List.sum_eq_zero
    intro x hx
    simp only [List.mem_map, List.mem_range] at hx
    obtain ⟨i, hi, rfl⟩ := hx
    apply slideAndMergeRow_merged_nil
    have := h i (List.mem_range.mpr hi)
    simpa using this

/-! ### Structural lemmas about `move` and `undo` -/

/-- `saveState` runs first in `move`, so the snapshot after any move
attempt holds exactly the pre-move grid and score. -/
theorem move_previousState (st : GameState) (dir : Direction) (k : Nat) (coin : Bool) :
    ((move st dir k coin).1).previousState = some (st.grid, st.score) := by
  unfold move
  dsimp only
  split
  · split
    · rfl
    · split <;> rfl
  · rfl

/-- The score written by `move` is always the old score plus the gain
accrued inside `slideAndMergeRow` over the four lines. -/
theorem move_score (st : GameState) (dir : Direction) (k : Nat) (coin : Bool) :
    ((move st dir k coin).1).score = st.score + (moveGrid st.grid dir).2.2.2 := by
  unfold move
  dsimp only
  split
  · split
    · rfl
    · split <;> rfl
  · rfl

/-- When the `moved` flag is false, `move` keeps the grid, the score, and
the won flag, spawns nothing, and reports no event. -/
theorem move_not_moved (st : GameState) (dir : Direction) (k : Nat) (coin : Bool)
    (h : (moveGrid st.grid dir).2.1 = false) :
    ((move st dir k coin).1).grid = st.grid ∧
    ((move st dir k coin).1).score = st.score ∧
    ((move st dir k coin).1).hasWon = st.hasWon ∧
    (move st dir k coin).2 = MoveEvent.noEvent := by
  have hg := moveGrid_not_moved_gain st.grid dir h
  unfold move
  dsimp only
  rw [h]
  simp [hg]

/-- When the `moved` flag is true, the committed grid is the transformed
grid with one tile spawned. -/
theorem move_moved_grid (st : GameState) (dir : Direction) (k : Nat) (coin : Bool)
    (h : (moveGrid st.grid dir).2.1 = true) :
    ((move st dir k coin).1).grid = addRandomTile (moveGrid st.grid dir).1 k coin := by
  unfold move
  dsimp only
  rw [h]
  split
  · split
    · rfl
    · split <;> rfl
  · simp_all

/-- The won flag after a move: unchanged unless the win branch fires. -/
theorem move_hasWon (st : GameState) (dir : Direction) (k : Nat) (coin : Bool) :
    ((move st dir k coin).1).hasWon
      = (st.hasWon || ((moveGrid st.grid dir).2.1
          && checkWin (addRandomTile (moveGrid st.grid dir).1 k coin))) := by
  unfold move
  dsimp only
  cases hm : (moveGrid st.grid dir).2.1 <;>
    cases hcw : checkWin (addRandomTile (moveGrid st.grid dir).1 k coin) <;>
      cases hh : st.hasWon <;>
        simp [hm, hcw, hh] <;>
          first
            | rfl
            | (split <;> rfl)

/-- The win overlay is shown exactly when the move committed, the
post-spawn grid holds a 2048 tile, and the won latch was not yet set. -/
theorem move_winEvent_iff (st : GameState) (dir : Direction) (k : Nat) (coin : Bool) :
    (move st dir k coin).2 = MoveEvent.winEvent
      ↔ ((moveGrid st.grid dir).2.1 = true
          ∧ checkWin (addRandomTile (moveGrid st.grid dir).1 k coin) = true
          ∧ st.hasWon = false) := by
  unfold move
  dsimp only
  cases hm : (moveGrid st.grid dir).2.1 <;>
    cases hcw : checkWin (addRandomTile (moveGrid st.grid dir).1 k coin) <;>
      cases hh : st.hasWon <;>
        simp [hm, hcw, hh] <;>
          (split <;> simp)

theorem undo_some (st : GameState) (g : List (List Nat)) (s : Nat)
    (h : st.previousState = some (g, s)) :
    undo st = { st with grid := g, score := s, previousState := none } := by
  unfold undo
  rw [h]

theorem undo_none (st : GameState) (h : st.previousState = none) : undo st = st := by
  unfold undo
  rw [h]

theorem undo_hasWon (st : GameState) : (undo st).hasWon = st.hasWon := by
  unfold undo
  split
  · rfl
  · rfl

/-! ### Game-over characterisation -/

/-- Some cell of the 4×4 board is empty. -/
def hasEmptyCell (g : List (List Nat)) : Prop :=
  ∃ i, i < 4 ∧ ∃ j, j < 4 ∧ cellAt g i j = 0

/-- Some cell has an equal-valued neighbour in any of the four
directions — every horizontally or vertically adjacent equal pair. -/
def hasAdjacentEqualPair (g : List (List Nat)) : Prop :=
  ∃ i, i < 4 ∧ ∃ j, j < 4 ∧
    ((i + 1 < 4 ∧ cellAt g (i + 1) j = cellAt g i j) ∨
     (0 < i ∧ cellAt g (i - 1) j = cellAt g i j) ∨
     (j + 1 < 4 ∧ cellAt g i (j + 1) = cellAt g i j) ∨
     (0 < j ∧ cellAt g i (j - 1) = cellAt g i j))

/-- The check `isGameOver` actually performs: an equal neighbour to the
right or below only. -/
def hasPairRB (g : List (List Nat)) : Prop :=
  ∃ i, i < 4 ∧ ∃ j, j < 4 ∧
    ((i < 3 ∧ cellAt g (i + 1) j = cellAt g i j) ∨
     (j < 3 ∧ cellAt g i (j + 1) = cellAt g i j))

/-- Checking only right/below neighbours covers every adjacent equal
pair: adjacency is symmetric. -/
theorem hasAdjacentEqualPair_iff_rb (g : List (List Nat)) :
    hasAdjacentEqualPair g ↔ hasPairRB g := by
  constructor
  · rintro ⟨i, hi, j, hj, h | h | h | h⟩
    · exact ⟨i, hi, j, hj, Or.inl ⟨by omega, h.2⟩⟩
    · refine ⟨i - 1, by omega, j, hj, Or.inl ⟨by omega, ?_⟩⟩
      have hii : i - 1 + 1 = i := by omega
      rw [hii]
      exact h.2.symm
    · exact ⟨i, hi, j, hj, Or.inr ⟨by omega, h.2⟩⟩
    · refine ⟨i, hi, j - 1, by omega, Or.inr ⟨by omega, ?_⟩⟩
      have hjj : j - 1 + 1 = j := by omega
      rw [hjj]
      exact h.2.symm
  · rintro ⟨i, hi, j, hj, h | h⟩
    · exact ⟨i, hi, j, hj, Or.inl ⟨by omega, h.2⟩⟩
    · exact ⟨i, hi, j, hj, Or.inr (Or.inr (Or.inl ⟨by omega, h.2⟩))⟩

/-- `isGameOver` returns false exactly on a grid with an empty cell or an
adjacent equal pair (in any direction), and true otherwise. -/
theorem isGameOver_eq_false_iff (g : List (List Nat)) :
    isGameOver g = false ↔ hasEmptyCell g ∨ hasAdjacentEqualPair g := by
  have hE : ((List.range 4).any fun i => (List.range 4).any fun j => cellAt g i j == 0) = true
      ↔ hasEmptyCell g := by
    simp [List.any_eq_true, List.mem_range, hasEmptyCell]
  have hR : ((List.range 4).any fun i => (List.range 4).any fun j =>
        (decide (i < 3) && (cellAt g (i + 1) j == cellAt g i j)) ||
        (decide (j < 3) && (cellAt g i (j + 1) == cellAt g i j))) = true
      ↔ hasPairRB g := by
    simp [List.any_eq_true, List.mem_range, hasPairRB]
  rw [hasAdjacentEqualPair_iff_rb]
  unfold isGameOver
  rcases Bool.eq_false_or_eq_true ((List.range 4).any fun i =>
      (List.range 4).any fun j => cellAt g i j == 0) with hb | hb <;>
    rcases Bool.eq_false_or_eq_true ((List.range 4).any fun i => (List.range 4).any fun j =>
        (decide (i < 3) && (cellAt g (i + 1) j == cellAt g i j)) ||
        (decide (j < 3) && (cellAt g i (j + 1) == cellAt g i j))) with hc | hc <;>
      rw [hb] at hE <;> rw [hc] at hR <;> simp [hb, hc] <;> tauto

/-! ### Tile values are powers of two -/

/-- A legal cell value: empty, or a power of two that is at least 2.  The
exponent is bounded by the value itself so that the predicate is
decidable by enumeration. -/
def TileVal (v : Nat) : Prop := v = 0 ∨ ∃ k, k ≤ v ∧ 0 < k ∧ v = 2 ^ k

instance (v : Nat) : Decidable (TileVal v) := by
  unfold TileVal
  infer_instance

theorem TileVal.double {v : Nat} (h : TileVal v) : TileVal (2 * v) := by
  rcases h with h | ⟨k, hk, hk0, hv⟩
  · subst h
    exact Or.inl rfl
  · subst hv
    refine Or.inr ⟨k + 1, ?_, by omega, by ring⟩
    have := Nat.lt_two_pow (k + 1)
    calc k + 1 ≤ 2 ^ (k + 1) := le_of_lt this
    _ = 2 * 2 ^ k := by ring

theorem TileVal.add_self {v : Nat} (h : TileVal v) : TileVal (v + v) := by
  have := TileVal.double h
  rwa [two_mul] at this

theorem TileVal_zero : TileVal 0 := Or.inl rfl

theorem TileVal_two : TileVal 2 := Or.inr ⟨1, by omega, by omega, rfl⟩

theorem TileVal_four : TileVal 4 := Or.inr ⟨2, by omega, by omega, rfl⟩

/-- All cells of all rows hold legal tile values. -/
def GoodGrid (g : List (List Nat)) : Prop := ∀ r ∈ g, ∀ v ∈ r, TileVal v

/-- The whole-state invariant: the live grid and the snapshotted grid (if
any) hold only legal tile values. -/
def GoodState (st : GameState) : Prop :=
  GoodGrid st.grid ∧ ∀ p, st.previousState = some p → GoodGrid p.1

theorem TileVal_getD {l : List Nat} (h : ∀ v ∈ l, TileVal v) (n : Nat) :
    TileVal (l.getD n 0) := by
  by_cases hn : n < l.length
  · rw [List.getD_eq_getElem l 0 hn]
    exact h _ (List.getElem_mem hn)
  · rw [List.getD_eq_default l 0 (by omega)]
    exact TileVal_zero

theorem GoodGrid_rowAt {g : List (List Nat)} (h : GoodGrid g) (i : Nat) :
    ∀ v ∈ rowAt g i, TileVal v := by
  intro v hv
  unfold rowAt at hv
  by_cases hi : i < g.length
  · rw [List.getD_eq_getElem g [] hi] at hv
    exact h _ (List.getElem_mem hi) v hv
  · rw [List.getD_eq_default g [] (by omega)] at hv
    cases hv

theorem GoodGrid_cellAt {g : List (List Nat)} (h : GoodGrid g) (i j : Nat) :
    TileVal (cellAt g i j) := TileVal_getD (GoodGrid_rowAt h i) j

theorem GoodGrid_colAt {g : List (List Nat)} (h : GoodGrid g) (j : Nat) :
    ∀ v ∈ colAt g j, TileVal v := by
  intro v hv
  unfold colAt at hv
  simp only [List.mem_cons, List.not_mem_nil, or_false] at hv
  rcases hv with rfl | rfl | rfl | rfl <;> exact GoodGrid_cellAt h _ _

theorem GoodGrid_colAtRev {g : List (List Nat)} (h : GoodGrid g) (j : Nat) :
    ∀ v ∈ colAtRev g j, TileVal v := by
  intro v hv
  rw [colAtRev_eq_reverse, List.mem_reverse] at hv
  exact GoodGrid_colAt h j v hv

/-- `slideAndMergeRow` keeps every cell a legal tile value: kept cells
are unchanged and merged cells are doubled. -/
theorem slideAndMergeRow_good {l : List Nat} (h : ∀ v ∈ l, TileVal v) :
    ∀ v ∈ (slideAndMergeRow l).row, TileVal v := by
  obtain ⟨bs, hj, hrow, hsh⟩ := mergeAux_grouping 0 (l.filter fun v => v != 0)
  intro v hv
  rw [slideAndMergeRow_def] at hv
  simp only at hv
  unfold padTo4 at hv
  rcases List.mem_append.mp hv with hv | hv
  · rw [hrow] at hv
    simp only [List.mem_map] at hv
    obtain ⟨b, hb, rfl⟩ := hv
    rcases hsh b hb with ⟨a, rfl⟩ | ⟨a, rfl⟩
    · have ha : a ∈ l := by
        have : a ∈ bs.flatten := List.mem_flatten.mpr ⟨[a], hb, by simp⟩
        rw [hj] at this
        exact (List.mem_filter.mp this).1
      simpa using h a ha
    · have ha : a ∈ l := by
        have : a ∈ bs.flatten := List.mem_flatten.mpr ⟨[a, a], hb, by simp⟩
        rw [hj] at this
        exact (List.mem_filter.mp this).1
      have := TileVal.add_self (h a ha)
      simpa using this
  · rw [List.eq_of_mem_replicate hv]
    exact TileVal_zero

theorem GoodGrid_mkGrid {f : Nat → Nat → Nat} (h : ∀ i j, TileVal (f i j)) :
    GoodGrid (mkGrid f) := by
  intro r hr v hv
  unfold mkGrid at hr
  simp only [List.mem_map, List.mem_range] at hr
  obtain ⟨i, hi, rfl⟩ := hr
  simp only [List.mem_map, List.mem_range] at hv
  obtain ⟨j, hj, rfl⟩ := hv
  exact h i j

/-- The transformed grid of any direction holds only legal tile values. -/
theorem moveGrid_good {g : List (List Nat)} (h : GoodGrid g) (dir : Direction) :
    GoodGrid (moveGrid g dir).1 := by
  cases dir with
  | left =>
    intro r hr v hv
    simp only [moveGrid, List.mem_map, List.mem_range] at hr
    obtain ⟨i, hi, rfl⟩ := hr
    exact slideAndMergeRow_good (GoodGrid_rowAt h i) v hv
  | right =>
    intro r hr v hv
    simp only [moveGrid, List.mem_map, List.mem_range] at hr
    obtain ⟨i, hi, rfl⟩ := hr
    refine slideAndMergeRow_good ?_ v hv
    intro x hx
    rw [List.mem_reverse] at hx
    exact GoodGrid_rowAt h i x hx
  | up =>
    simp only [moveGrid]
    apply GoodGrid_mkGrid
    intro i j
    exact TileVal_getD (slideAndMergeRow_good (GoodGrid_colAt h j)) i
  | down =>
    simp only [moveGrid]
    apply GoodGrid_mkGrid
    intro i j
    exact TileVal_getD (slideAndMergeRow_good (GoodGrid_colAtRev h j)) (3 - i)

/-- `setCell` with a legal value keeps the grid legal. -/
theorem setCell_good {g : List (List Nat)} (h : GoodGrid g) {v : Nat} (hv : TileVal v)
    (i j : Nat) : GoodGrid (setCell g i j v) := by
  intro r hr x hx
  unfold setCell at hr
  rcases List.mem_or_eq_of_mem_set hr with hr | rfl
  · exact h r hr x hx
  · rcases List.mem_or_eq_of_mem_set hx with hx | rfl
    · exact GoodGrid_rowAt h i x hx
    · exact hv

/-- `addRandomTile` writes only 2 or 4 into an empty cell. -/
theorem addRandomTile_good {g : List (List Nat)} (h : GoodGrid g) (k : Nat) (coin : Bool) :
    GoodGrid (addRandomTile g k coin) := by
  unfold addRandomTile
  dsimp only
  split
  · exact h
  · apply setCell_good h
    cases coin
    · exact TileVal_four
    · exact TileVal_two

theorem initGrid_good : GoodGrid initGrid := by
  intro r hr v hv
  rw [List.eq_of_mem_replicate hr] at hv
  rw [List.eq_of_mem_replicate hv]
  exact TileVal_zero

/-! ### Concrete states used by counterexamples and witnesses -/

/-- A state whose only tiles are already packed against the left edge
with no equal adjacent pair: every move to the left is a no-op. -/
def stNoop : GameState :=
  { grid := [[2, 4, 0, 0], [0, 0, 0, 0], [0, 0, 0, 0], [0, 0, 0, 0]]
    score := 0, previousState := none, hasWon := false }

/-- A state with one mergeable pair of 2s and score 0. -/
def stPair : GameState :=
  { grid := [[2, 2, 0, 0], [0, 0, 0, 0], [0, 0, 0, 0], [0, 0, 0, 0]]
    score := 0, previousState := none, hasWon := false }

/-- A state whose first row merges into a 4 and an 8 on a left move. -/
def stTwoPairs : GameState :=
  { grid := [[2, 2, 4, 4], [0, 0, 0, 0], [0, 0, 0, 0], [0, 0, 0, 0]]
    score := 0, previousState := none, hasWon := false }

/-- A state one merge away from the 2048 tile, not yet won. -/
def stAlmostWon : GameState :=
  { grid := [[1024, 1024, 0, 0], [0, 0, 0, 0], [0, 0, 0, 0], [0, 0, 0, 0]]
    score := 0, previousState := none, hasWon := false }

/-- The same board with the won latch already set. -/
def stAlreadyWon : GameState :=
  { grid := [[1024, 1024, 0, 0], [0, 0, 0, 0], [0, 0, 0, 0], [0, 0, 0, 0]]
    score := 0, previousState := none, hasWon := true }

/-! ### The claims -/

/-- C1: the claim says a right move packs tiles toward the right edge as
the mirror image of a left move, so a row `[0,0,2,2]` must become
`[0,0,0,4]`.  The code instead stores `[4,0,0,0]` for that row: line 117
reverses the slid line in place during the `moved` comparison and line
120 reverses it back before storing, so the committed row is the
left-packed line.  The left half of the claim does hold:
`[2,2,0,0]` slides to `[4,0,0,0]`.  This theorem evaluates the embedded
transformation at the failing input. -/
theorem c1_right_move_failing_input :
    (moveGrid [[0, 0, 2, 2], [0, 0, 0, 0], [0, 0, 0, 0], [0, 0, 0, 0]] Direction.right).1
      = [[4, 0, 0, 0], [0, 0, 0, 0], [0, 0, 0, 0], [0, 0, 0, 0]] ∧
    rowAt (moveGrid [[0, 0, 2, 2], [0, 0, 0, 0], [0, 0, 0, 0], [0, 0, 0, 0]] Direction.right).1 0
      ≠ [0, 0, 0, 4] ∧
    (slideAndMergeRow [2, 2, 0, 0]).row = [4, 0, 0, 0] := by
  refine ⟨by decide, by decide, by decide⟩

/-- C2 counterexample: after a move whose `moved` flag is false, the
snapshot is NOT discarded — `previousState` still holds the (unchanged)
grid and score, so a following undo does find a snapshot.  The code has
no else-branch dropping the snapshot taken by `saveState`. -/
theorem c2_counterexample :
    (moveGrid stNoop.grid Direction.left).2.1 = false ∧
    ((move stNoop Direction.left 0 true).1).previousState = some (stNoop.grid, stNoop.score) ∧
    ((move stNoop Direction.left 0 true).1).previousState ≠ none := by
  refine ⟨by decide, by decide, by decide⟩

/-- C2 (amended): when a move leaves the grid identical to the input, no
tile is spawned and grid, score, won flag and reported event are
unchanged; the snapshot, however, is kept and holds exactly the current
grid and score, so a following undo restores an identical state (merely
clearing the snapshot). -/
theorem c2_noop_move_keeps_state (st : GameState) (dir : Direction) (k : Nat) (coin : Bool)
    (h : (moveGrid st.grid dir).2.1 = false) :
    ((move st dir k coin).1).grid = st.grid ∧
    ((move st dir k coin).1).score = st.score ∧
    ((move st dir k coin).1).hasWon = st.hasWon ∧
    (move st dir k coin).2 = MoveEvent.noEvent ∧
    ((move st dir k coin).1).previousState = some (st.grid, st.score) ∧
    undo ((move st dir k coin).1) = { st with previousState := none } := by
  obtain ⟨hg, hs, hw, he⟩ := move_not_moved st dir k coin h
  refine ⟨hg, hs, hw, he, move_previousState st dir k coin, ?_⟩
  rw [undo_some _ st.grid st.score (move_previousState st dir k coin)]
  cases hst : st
  simp only [hst] at hw
  simp [hw]

theorem c2_noop_move_keeps_state_witness :
    ((move stNoop Direction.left 0 true).1).grid = stNoop.grid ∧
    ((move stNoop Direction.left 0 true).1).score = stNoop.score ∧
    undo ((move stNoop Direction.left 0 true).1) = { stNoop with previousState := none } :=
  ⟨(c2_noop_move_keeps_state stNoop Direction.left 0 true (by decide)).1,
   (c2_noop_move_keeps_state stNoop Direction.left 0 true (by decide)).2.1,
   (c2_noop_move_keeps_state stNoop Direction.left 0 true (by decide)).2.2.2.2.2⟩

/-- C3 counterexample: the score does decrease under a sequence of engine
operations — a move that merges a pair raises the score to 4, and the
following undo restores it to 0. -/
theorem c3_counterexample :
    ((move stPair Direction.left 0 true).1).score = 4 ∧
    (undo ((move stPair Direction.left 0 true).1)).score = 0 ∧
    (undo ((move stPair Direction.left 0 true).1)).score
      < ((move stPair Direction.left 0 true).1).score := by
  refine ⟨by decide, by decide, by decide⟩

/-- C3 (amended): within a game the score is a natural number; a move
never decreases it, and strictly increases it only when the move records
merges; undo restores the score to its value immediately before the
move, which may be lower. -/
theorem c3_score_monotone_under_moves (st : GameState) (dir : Direction) (k : Nat)
    (coin : Bool) :
    st.score ≤ ((move st dir k coin).1).score ∧
    (((move st dir k coin).1).score = st.score ∨ (moveGrid st.grid dir).2.2.1 ≠ []) ∧
    (undo ((move st dir k coin).1)).score = st.score := by
  refine ⟨?_, ?_, ?_⟩
  · rw [move_score]
    omega
  · by_cases h : (moveGrid st.grid dir).2.2.1 = []
    · left
      rw [move_score, moveGrid_merged_nil_gain st.grid dir h]
      omega
    · right
      exact h
  · rw [undo_some _ st.grid st.score (move_previousState st dir k coin)]

theorem c3_score_monotone_witness :
    stPair.score ≤ ((move stPair Direction.left 0 true).1).score ∧
    (undo ((move stPair Direction.left 0 true).1)).score = stPair.score :=
  ⟨(c3_score_monotone_under_moves stPair Direction.left 0 true).1,
   (c3_score_monotone_under_moves stPair Direction.left 0 true).2.2⟩

/-- C4: merging is single-pass and non-cascading — the compacted cells
of every processed line split into consecutive blocks of size one or
two, a size-two block being a pair of equal cells; each output cell is
the sum of its block, so no cell produced by a merge merges again in the
same move; and `[2,2,2,2]` becomes `[4,4,0,0]`, not `[8,0,0,0]`. -/
theorem c4_single_pass_merge (row : List Nat) :
    (∃ bs : List (List Nat),
        bs.flatten = row.filter (fun v => v != 0) ∧
        (slideAndMergeRow row).row = padTo4 (bs.map List.sum) ∧
        ∀ b ∈ bs, (∃ a, b = [a]) ∨ (∃ a, b = [a, a])) ∧
    (slideAndMergeRow [2, 2, 2, 2]).row = [4, 4, 0, 0] ∧
    (slideAndMergeRow [2, 2, 2, 2]).row ≠ [8, 0, 0, 0] := by
  obtain ⟨bs, hj, hrow, hsh⟩ := mergeAux_grouping 0 (row.filter fun v => v != 0)
  refine ⟨⟨bs, hj, ?_, hsh⟩, by decide, by decide⟩
  rw [slideAndMergeRow_def]
  simp only
  rw [hrow]

theorem c4_single_pass_witness :
    (slideAndMergeRow [2, 2, 2, 2]).row = [4, 4, 0, 0] ∧
    (slideAndMergeRow [2, 2, 2, 2]).row ≠ [8, 0, 0, 0] :=
  ⟨(c4_single_pass_merge [2, 2, 2, 2]).2.1, (c4_single_pass_merge [2, 2, 2, 2]).2.2⟩

/-- C5: the score written by a move is the old score plus the move's
total gain; that gain is the sum of the per-line gains, each of which is
exactly the sum of the doubled cells created by the line's merges (read
off at the recorded merge positions); and a move that records no merged
cells leaves the score unchanged. -/
theorem c5_score_delta_eq_merge_values (st : GameState) (dir : Direction) (k : Nat)
    (coin : Bool) :
    ((move st dir k coin).1).score = st.score + (moveGrid st.grid dir).2.2.2 ∧
    (moveGrid st.grid dir).2.2.2
      = ((linesOf st.grid dir).map fun l => (slideAndMergeRow l).gain).sum ∧
    (∀ l : List Nat,
        (slideAndMergeRow l).gain
          = ((slideAndMergeRow l).merged.map fun j => (slideAndMergeRow l).row.getD j 0).sum) ∧
    ((moveGrid st.grid dir).2.2.1 = [] → ((move st dir k coin).1).score = st.score) := by
  refine ⟨move_score st dir k coin, moveGrid_gain_eq st.grid dir,
    fun l => slideAndMergeRow_gain_eq l, fun h => ?_⟩
  rw [move_score, moveGrid_merged_nil_gain st.grid dir h]
  omega

theorem c5_score_delta_witness :
    ((move stTwoPairs Direction.left 0 true).1).score = stTwoPairs.score + 12 ∧
    ((move stNoop Direction.right 0 true).1).score = stNoop.score := by
  constructor
  · rw [(c5_score_delta_eq_merge_values stTwoPairs Direction.left 0 true).1]
    decide
  · exact (c5_score_delta_eq_merge_values stNoop Direction.right 0 true).2.2.2 (by decide)

/-- C6: after any move the snapshot holds the pre-move grid and score,
so undo restores exactly those, clears the snapshot, and a second
consecutive undo is a no-op; undo on a state without a snapshot changes
nothing. -/
theorem c6_undo_restores_snapshot (st : GameState) (dir : Direction) (k : Nat)
    (coin : Bool) :
    (undo ((move st dir k coin).1)).grid = st.grid ∧
    (undo ((move st dir k coin).1)).score = st.score ∧
    (undo ((move st dir k coin).1)).previousState = none ∧
    undo (undo ((move st dir k coin).1)) = undo ((move st dir k coin).1) ∧
    ∀ s : GameState, s.previousState = none → undo s = s := by
  have hu := undo_some _ st.grid st.score (move_previousState st dir k coin)
  refine ⟨by rw [hu], by rw [hu], by rw [hu], ?_, fun s hs => undo_none s hs⟩
  rw [hu]
  exact undo_none _ rfl

theorem c6_undo_witness :
    (undo ((move stPair Direction.left 0 true).1)).score = 0 ∧
    (undo ((move stPair Direction.left 0 true).1)).grid = stPair.grid ∧
    undo stTwoPairs = stTwoPairs :=
  ⟨(c6_undo_restores_snapshot stPair Direction.left 0 true).2.1,
   (c6_undo_restores_snapshot stPair Direction.left 0 true).1,
   (c6_undo_restores_snapshot stPair Direction.left 0 true).2.2.2.2 stTwoPairs rfl⟩

/-- C7: the won flag is a one-way latch — a new game starts with it
clear, undo never touches it, a move from a won state keeps it set and
never shows the win overlay again (even with a 2048 tile still on the
board), and the first committing move whose resulting board holds a 2048
tile sets the latch and shows the win overlay. -/
theorem c7_won_latch (st : GameState) (dir : Direction) (k : Nat) (coin : Bool)
    (k1 : Nat) (c1 : Bool) (k2 : Nat) (c2 : Bool) :
    (newGame k1 c1 k2 c2).hasWon = false ∧
    (undo st).hasWon = st.hasWon ∧
    (st.hasWon = true →
      ((move st dir k coin).1).hasWon = true ∧ (move st dir k coin).2 ≠ MoveEvent.winEvent) ∧
    (st.hasWon = false → (moveGrid st.grid dir).2.1 = true →
      checkWin (addRandomTile (moveGrid st.grid dir).1 k coin) = true →
      ((move st dir k coin).1).hasWon = true ∧ (move st dir k coin).2 = MoveEvent.winEvent) := by
  refine ⟨rfl, undo_hasWon st, fun hw => ⟨?_, ?_⟩, fun hnw hm hc => ⟨?_, ?_⟩⟩
  · rw [move_hasWon, hw]
    simp
  · intro he
    have := ((move_winEvent_iff st dir k coin).mp he).2.2
    rw [hw] at this
    cases this
  · rw [move_hasWon, hnw, hm, hc]
    rfl
  · exact (move_winEvent_iff st dir k coin).mpr ⟨hm, hc, hnw⟩

theorem c7_won_latch_witness :
    (((move stAlmostWon Direction.left 0 true).1).hasWon = true
      ∧ (move stAlmostWon Direction.left 0 true).2 = MoveEvent.winEvent) ∧
    (((move stAlreadyWon Direction.left 0 true).1).hasWon = true
      ∧ (move stAlreadyWon Direction.left 0 true).2 ≠ MoveEvent.winEvent) ∧
    (newGame 0 true 0 true).hasWon = false :=
  ⟨(c7_won_latch stAlmostWon Direction.left 0 true 0 true 0 true).2.2.2
      rfl (by decide) (by decide),
   (c7_won_latch stAlreadyWon Direction.left 0 true 0 true 0 true).2.2.1 rfl,
   (c7_won_latch stAlreadyWon Direction.left 0 true 0 true 0 true).1⟩

/-- C8: `isGameOver` returns false exactly when some cell is empty or
some cell has an equal neighbour in any direction; the right/below scan
it performs covers every horizontally or vertically adjacent equal pair;
otherwise it returns true. -/
theorem c8_isGameOver_characterisation (g : List (List Nat)) :
    (isGameOver g = false ↔ hasEmptyCell g ∨ hasAdjacentEqualPair g) ∧
    (hasAdjacentEqualPair g ↔ hasPairRB g) ∧
    (isGameOver g = true ↔ ¬(hasEmptyCell g ∨ hasAdjacentEqualPair g)) := by
  refine ⟨isGameOver_eq_false_iff g, hasAdjacentEqualPair_iff_rb g, ?_⟩
  rw [← isGameOver_eq_false_iff]
  cases h : isGameOver g <;> simp

/-- A full board with no equal adjacent pair: the game is over. -/
def gridStuck : List (List Nat) :=
  [[2, 4, 2, 4], [4, 2, 4, 2], [2, 4, 2, 4], [4, 2, 4, 2]]

theorem c8_isGameOver_witness :
    (isGameOver gridStuck = false ↔ hasEmptyCell gridStuck ∨ hasAdjacentEqualPair gridStuck) ∧
    (hasAdjacentEqualPair gridStuck ↔ hasPairRB gridStuck) ∧
    (isGameOver gridStuck = true ↔ ¬(hasEmptyCell gridStuck ∨ hasAdjacentEqualPair gridStuck)) :=
  c8_isGameOver_characterisation gridStuck

/-- C9: the claim says a malformed persisted value falls back to a new
game and never raises a fatal error.  The code only falls back when the
stored value is ABSENT; a present-but-malformed value reaches
`JSON.parse` with no try/catch, so the parse error propagates out of
`loadGame` (modelled as `Except.error`).  This theorem evaluates the
load at the failing input and shows the absent case does fall back. -/
theorem c9_load_malformed_throws :
    loadGame true (some StoredText.malformed) 0 true 0 true = Except.error () ∧
    loadGame true (some StoredText.malformed) 0 true 0 true
      ≠ Except.ok (newGame 0 true 0 true) ∧
    loadGame true none 0 true 0 true = Except.ok (newGame 0 true 0 true) := by
  refine ⟨rfl, fun h => Except.noConfusion h, rfl⟩

/-- C10: every cell is 0 or a power of two that is at least 2 — the
invariant holds for a new game, is preserved by tile spawning (which
writes only 2 or 4), by every move (kept cells are unchanged, merged
cells doubled, then a spawn), and by undo (the snapshot was a good grid
captured at move start). -/
theorem c10_cells_powers_of_two (st : GameState) (dir : Direction) (k : Nat) (coin : Bool)
    (g : List (List Nat)) (k1 : Nat) (c1 : Bool) (k2 : Nat) (c2 : Bool) :
    GoodState (newGame k1 c1 k2 c2) ∧
    (GoodGrid g → GoodGrid (addRandomTile g k coin)) ∧
    (GoodState st → GoodState ((move st dir k coin).1)) ∧
    (GoodState st → GoodState (undo st)) := by
  refine ⟨⟨?_, ?_⟩, fun h => addRandomTile_good h k coin, fun h => ⟨?_, ?_⟩, fun h => ?_⟩
  · exact addRandomTile_good (addRandomTile_good initGrid_good k1 c1) k2 c2
  · intro p hp
    cases hp
  · rcases Bool.eq_false_or_eq_true (moveGrid st.grid dir).2.1 with hm | hm
    · rw [move_moved_grid st dir k coin hm]
      exact addRandomTile_good (moveGrid_good h.1 dir) k coin
    · rw [(move_not_moved st dir k coin hm).1]
      exact h.1
  · intro p hp
    rw [move_previousState st dir k coin] at hp
    cases hp
    exact h.1
  · rcases hp : st.previousState with _ | ⟨gp, sp⟩
    · rw [undo_none st hp]
      exact h
    · rw [undo_some st gp sp hp]
      exact ⟨h.2 (gp, sp) hp, fun p hq => by cases hq⟩

theorem c10_cells_powers_of_two_witness :
    GoodState (newGame 0 true 0 true) ∧
    GoodState ((move (newGame 0 true 0 true) Direction.left 0 true).1) :=
  ⟨(c10_cells_powers_of_two (newGame 0 true 0 true) Direction.left 0 true initGrid
      0 true 0 true).1,
   (c10_cells_powers_of_two (newGame 0 true 0 true) Direction.left 0 true initGrid
      0 true 0 true).2.2.1
     ((c10_cells_powers_of_two (newGame 0 true 0 true) Direction.left 0 true initGrid
      0 true 0 true).1)⟩

end Game2048
